import Mathlib

/-
Verification of the set-piece extraction script
(`src/scripts/extract_set_piece_data.py`).

The script reads a UTF-8 text report, slices it into per-club sections using
the anchor pattern "<club>\s*\nPenalties", extracts three labelled line lists
per section with the regular expressions

  "Penalties\s*\n((?:.*\n)+?)Direct free-kicks"
  "Direct free-kicks\s*\n((?:.*\n)+?)Corners & indirect free-kicks"
  "Corners & indirect free-kicks\s*\n((?:.*\n)+?)(?:\n\n|\Z)"

splits the last captured block into short "taker" lines and note lines, and
serializes the result as JSON with 4-space indentation and literal unicode.

Texts are embedded as `List Char` (Python string indices are code points).
The three regular expressions above all have the shape
"LIT1 \s* \n ( (?:.*\n)+? ) END" and are embedded by a backtracking matcher
that follows Python's search order exactly: candidate start positions left to
right; at a given start, the greedy `\s*` tries the longest whitespace run
first and backtracks downwards; for each such choice the lazy group tries one
line, then two, and so on.  Since `.` does not match a newline, each group
repetition consumes exactly one newline-terminated line.
-/

set_option maxRecDepth 20000

/-- Embedding of Python's whitespace test (`\s` in `re` for `str` patterns,
and the default `str.strip` / `str.split`): ASCII whitespace, the file
separators 0x1c-0x1f, and the unicode space characters. -/
def isPySpace (c : Char) : Bool :=
  (0x09 ≤ c.toNat && c.toNat ≤ 0x0d) ||
  (0x1c ≤ c.toNat && c.toNat ≤ 0x1f) ||
  c.toNat = 0x20 || c.toNat = 0x85 || c.toNat = 0xa0 || c.toNat = 0x1680 ||
  (0x2000 ≤ c.toNat && c.toNat ≤ 0x200a) ||
  c.toNat = 0x2028 || c.toNat = 0x2029 ||
  c.toNat = 0x202f || c.toNat = 0x205f || c.toNat = 0x3000

/-- Does the pattern (first argument) occur literally at the head of the
text (second argument)? -/
def startsWith : List Char → List Char → Bool
  | [], _ => true
  | _ :: _, [] => false
  | p :: ps, c :: cs => p == c && startsWith ps cs

/-- Index of the first position (0-based, scanning left to right, the
position at end of text included) whose suffix satisfies the predicate.
This is `re.search(...).start()` for patterns embedded as a predicate on
the remaining text. -/
def firstMatchPos (p : List Char → Bool) : List Char → Option Nat
  | [] => if p [] then some 0 else none
  | c :: t => if p (c :: t) then some 0 else (firstMatchPos p t).map (fun n => n + 1)

/-- Remove trailing Python whitespace. -/
def dropTrailingWs (l : List Char) : List Char :=
  (l.reverse.dropWhile isPySpace).reverse

/-- Embedding of Python `str.strip()`. -/
def stripWs (l : List Char) : List Char :=
  dropTrailingWs (l.dropWhile isPySpace)

/-- Embedding of Python `str.split('\n')`. -/
def splitOnNl : List Char → List (List Char)
  | [] => [[]]
  | c :: t =>
    if c = '\n' then [] :: splitOnNl t
    else
      match splitOnNl t with
      | [] => [[c]]
      | l :: ls => (c :: l) :: ls

/-- Worker for `pySplitWs`, accumulating the current word reversed. -/
def pySplitWsAux : List Char → List Char → List (List Char)
  | [], acc => if acc.isEmpty then [] else [acc.reverse]
  | c :: t, acc =>
    if isPySpace c then
      if acc.isEmpty then pySplitWsAux t [] else acc.reverse :: pySplitWsAux t []
    else pySplitWsAux t (c :: acc)

/-- Embedding of Python `str.split()` (split on whitespace runs, no empty
words). -/
def pySplitWs (l : List Char) : List (List Char) :=
  pySplitWsAux l []

/-- The lazy group `((?:.*\n)+?)` followed by a terminator test: consume
newline-terminated lines one at a time and return the shortest nonempty
group of complete lines whose remaining text satisfies `isEnd`. -/
def lazyLines (isEnd : List Char → Bool) : List Char → Option (List Char)
  | [] => none
  | c :: t =>
    if c = '\n' && isEnd t then some ['\n']
    else (lazyLines isEnd t).map (fun g => c :: g)

/-- Length of the maximal leading whitespace run (the text the greedy `\s*`
matches before backtracking). -/
def countLeadingWs : List Char → Nat
  | [] => 0
  | c :: t => if isPySpace c then countLeadingWs t + 1 else 0

/-- One backtracking alternative for `\s*\n(group)`: the `\s*` consumes `a`
characters, the newline must sit at index `a`, and the group starts after
it. -/
def tryAt (isEnd : List Char → Bool) (r : List Char) (a : Nat) : Option (List Char) :=
  if r.get? a = some '\n' then lazyLines isEnd (r.drop (a + 1)) else none

/-- Backtrack the greedy `\s*` from `a` characters down to zero, returning
the group of the first alternative that completes a match. -/
def tryWsLens (isEnd : List Char → Bool) (r : List Char) : Nat → Option (List Char)
  | 0 => tryAt isEnd r 0
  | a + 1 =>
    match tryAt isEnd r (a + 1) with
    | some g => some g
    | none => tryWsLens isEnd r a

/-- Match `\s*\n(group)isEnd` at the head of `r`, with Python's
backtracking order (longest `\s*` first). -/
def afterLit (isEnd : List Char → Bool) (r : List Char) : Option (List Char) :=
  tryWsLens isEnd r (countLeadingWs r)

/-- Embedding of `re.search("LIT\s*\n((?:.*\n)+?)END", s).group(1)`:
scan candidate start positions left to right; at the first position where
the literal matches and some backtracking alternative completes, return
that alternative's group. -/
def searchBetween (lit : List Char) (isEnd : List Char → Bool) : List Char → Option (List Char)
  | [] => none
  | c :: t =>
    match (if startsWith lit (c :: t) then afterLit isEnd ((c :: t).drop lit.length) else none) with
    | some g => some g
    | none => searchBetween lit isEnd t

/-- The literal heading "Penalties". -/
def pLit : List Char := "Penalties".data

/-- The literal heading "Direct free-kicks". -/
def dLit : List Char := "Direct free-kicks".data

/-- The literal heading "Corners & indirect free-kicks". -/
def cLit : List Char := "Corners & indirect free-kicks".data

/-- Two consecutive newline characters. -/
def nlnl : List Char := ['\n', '\n']

/-- Terminator of the penalties group: the literal "Direct free-kicks". -/
def penEnd (r : List Char) : Bool := startsWith dLit r

/-- Terminator of the direct free-kicks group: the literal
"Corners & indirect free-kicks". -/
def dfkEnd (r : List Char) : Bool := startsWith cLit r

/-- Terminator of the corners group: `(?:\n\n|\Z)`, i.e. two consecutive
newlines or the end of the section string. -/
def cornersEnd (r : List Char) : Bool := startsWith nlnl r || r.isEmpty

/-- Predicate for an occurrence of two consecutive newlines. -/
def nlnlAt (r : List Char) : Bool := startsWith nlnl r

/-- Embedding of `[p.strip() for p in text.strip().split('\n') if p.strip()]`
applied to a captured group. -/
def cleanLines (g : List Char) : List String :=
  (((splitOnNl (stripWs g)).map stripWs).filter (fun l => !l.isEmpty)).map
    (fun l => String.mk l)

/-- One club's four extracted lists, in the fixed field order of the source
dictionary literal. -/
structure ClubRecord where
  penalties : List String
  direct_free_kicks : List String
  corners_indirect_free_kicks : List String
  notes : List String
deriving DecidableEq

/-- Embedding of the corners classification loop: strip each line, skip
blank lines, put lines of at most 2 whitespace-separated words into the
taker list while `in_notes` is still false, and once a longer line is seen
set `in_notes` and put that line and all later lines into the notes list. -/
def classifyCornersAux : List (List Char) → Bool → List String × List String
  | [], _ => ([], [])
  | l :: t, inNotes =>
    let line := stripWs l
    if line.isEmpty then classifyCornersAux t inNotes
    else if (pySplitWs line).length ≤ 2 ∧ inNotes = false then
      let r := classifyCornersAux t inNotes
      (String.mk line :: r.1, r.2)
    else
      let r := classifyCornersAux t true
      (r.1, String.mk line :: r.2)

/-- The corners-and-notes pair extracted from a club section. -/
def cornersNotes (sec : List Char) : List String × List String :=
  match searchBetween cLit cornersEnd sec with
  | some g => classifyCornersAux (splitOnNl (stripWs g)) false
  | none => ([], [])

/-- All four lists extracted from one club section (the three `re.search`
calls of the source, each over the full section text). -/
def extractSection (sec : List Char) : ClubRecord :=
  { penalties :=
      match searchBetween pLit penEnd sec with
      | some g => cleanLines g
      | none => []
    direct_free_kicks :=
      match searchBetween dLit dfkEnd sec with
      | some g => cleanLines g
      | none => []
    corners_indirect_free_kicks := (cornersNotes sec).1
    notes := (cornersNotes sec).2 }

/-- The fixed 20-club roster, in the source's order. -/
def clubs : List String :=
  ["Arsenal", "Aston Villa", "Bournemouth", "Brentford", "Brighton", "Chelsea",
   "Crystal Palace", "Everton", "Fulham", "Ipswich", "Leicester", "Liverpool",
   "Man City", "Man Utd", "Newcastle", "Nott'm Forest", "Southampton", "Spurs",
   "West Ham", "Wolves"]

/-- Start position of the first match of `"<club>\s*\nPenalties"` in the
text (the tail `\s*\nPenalties` is checked by existence of some whitespace
prefix ending at a newline followed by the literal). -/
def anchorTail : List Char → Bool
  | [] => false
  | c :: t => (c = '\n' && startsWith pLit t) || (isPySpace c && anchorTail t)

/-- Embedding of `re.search(f"{club}\s*\nPenalties", content).start()`. -/
def findAnchorPos (club : String) (cs : List Char) : Option Nat :=
  firstMatchPos (fun s => startsWith club.data s && anchorTail (s.drop club.data.length)) cs

/-- Start and end offset of club `i`'s section: the start of its own anchor
match, and the start of club `i+1`'s anchor match (searched from the
beginning of the whole text) or the end of the document. -/
def clubBounds (cs : List Char) (i : Nat) : Option (Nat × Nat) :=
  match findAnchorPos (clubs.getD i "") cs with
  | none => none
  | some s =>
    if i < clubs.length - 1 then
      match findAnchorPos (clubs.getD (i + 1) "") cs with
      | some q => some (s, q)
      | none => some (s, cs.length)
    else some (s, cs.length)

/-- The main loop over the enumerated roster: clubs whose anchor is absent
are skipped, the others contribute one record extracted from their section
slice `content[start:end]`.  The Python dictionary is embedded as an
insertion-ordered association list (club names are pairwise distinct). -/
def extractLoop (cs : List Char) : List (Nat × String) → List (String × ClubRecord)
  | [] => []
  | p :: rest =>
    match clubBounds cs p.1 with
    | none => extractLoop cs rest
    | some (s, e) => (p.2, extractSection ((cs.drop s).take (e - s))) :: extractLoop cs rest

/-- Embedding of `extract_set_piece_data`, as a function from the input
file's text to the structured mapping that gets serialized. -/
def extract_set_piece_data (content : String) : List (String × ClubRecord) :=
  extractLoop content.data clubs.enum

/-- A string of `n` spaces (the 4-space-per-level indentation of
`json.dump(..., indent=4)` at nesting depth `n / 4`). -/
def nSpaces (n : Nat) : String := String.mk (List.replicate n ' ')

/-- Lower-case hexadecimal digit. -/
def hexDigit (n : Nat) : Char :=
  if n < 10 then Char.ofNat (48 + n) else Char.ofNat (87 + n)

/-- JSON escaping of one character with `ensure_ascii=False`: only the
quote, the backslash and control characters are escaped; every other
character (unicode included) is kept literally. -/
def escChar (c : Char) : String :=
  if c = '\"' then "\\\""
  else if c = '\\' then "\\\\"
  else if c = '\n' then "\\n"
  else if c = '\t' then "\\t"
  else if c = '\r' then "\\r"
  else if c = '\x08' then "\\b"
  else if c = '\x0c' then "\\f"
  else if c.toNat < 32 then "\\u00" ++ String.mk [hexDigit (c.toNat / 16), hexDigit (c.toNat % 16)]
  else String.singleton c

/-- A JSON string literal. -/
def jsonStr (s : String) : String :=
  "\"" ++ String.join (s.data.map escChar) ++ "\""

/-- The comma-and-newline separated items of a nonempty JSON array of
strings, each on its own line at indentation `ind`. -/
def jsonArrItems (ind : Nat) (x : String) : List String → String
  | [] => nSpaces ind ++ jsonStr x
  | y :: ys => nSpaces ind ++ jsonStr x ++ ",\n" ++ jsonArrItems ind y ys

/-- A JSON array of strings as `json.dump` renders it with `indent=4`:
`[]` when empty, otherwise one item per line one level deeper. -/
def jsonArr (ind : Nat) : List String → String
  | [] => "[]"
  | x :: xs => "[\n" ++ jsonArrItems (ind + 4) x xs ++ "\n" ++ nSpaces ind ++ "]"

/-- One club record as a JSON object: always exactly the four keys
`penalties`, `direct_free_kicks`, `corners_indirect_free_kicks`, `notes`,
in this order. -/
def jsonRecord (ind : Nat) (r : ClubRecord) : String :=
  "\x7b\n" ++
  nSpaces (ind + 4) ++ jsonStr "penalties" ++ ": " ++ jsonArr (ind + 4) r.penalties ++ ",\n" ++
  nSpaces (ind + 4) ++ jsonStr "direct_free_kicks" ++ ": " ++ jsonArr (ind + 4) r.direct_free_kicks ++ ",\n" ++
  nSpaces (ind + 4) ++ jsonStr "corners_indirect_free_kicks" ++ ": " ++ jsonArr (ind + 4) r.corners_indirect_free_kicks ++ ",\n" ++
  nSpaces (ind + 4) ++ jsonStr "notes" ++ ": " ++ jsonArr (ind + 4) r.notes ++
  "\n" ++ nSpaces ind ++ "\x7d"

/-- The comma-and-newline separated members of the top-level JSON object,
in the association list's (i.e. the roster's) order. -/
def jsonTopItems (x : String × ClubRecord) : List (String × ClubRecord) → String
  | [] => nSpaces 4 ++ jsonStr x.1 ++ ": " ++ jsonRecord 4 x.2
  | y :: ys => nSpaces 4 ++ jsonStr x.1 ++ ": " ++ jsonRecord 4 x.2 ++ ",\n" ++ jsonTopItems y ys

/-- Embedding of `json.dump(set_piece_data, f, indent=4, ensure_ascii=False)`
for the mapping's shape (an object of objects of arrays of strings). -/
def serializeOutput : List (String × ClubRecord) → String
  | [] => "\x7b\x7d"
  | x :: xs => "\x7b\n" ++ jsonTopItems x xs ++ "\n\x7d"

/-- Observable effects of one run after the input read: the single output
file write and the confirmation print. -/
inductive ScriptStep where
  | writeOutput (text : String)
  | printed (msg : String)
deriving DecidableEq

/-- The fixed confirmation message printed after a successful run. -/
def confirmationMsg : String :=
  "Structured set piece data extracted and saved to set_piece_takers_structured.json"

/-- The whole script run, with the fallible input read embedded as an
`Except` value: a read or decode failure propagates unchanged and nothing
after it runs, in particular no output write effect is produced; on a
successful read the write happens only after the whole extraction, with the
fully serialized document. -/
def runScript (readResult : Except String String) : Except String (List ScriptStep) :=
  match readResult with
  | Except.error e => Except.error e
  | Except.ok content =>
    Except.ok [ScriptStep.writeOutput (serializeOutput (extract_set_piece_data content)),
               ScriptStep.printed confirmationMsg]

/-- The C1 scenario input: the Arsenal section followed by an analogous
Chelsea section. -/
def c1Bad : String :=
  "Arsenal\nPenalties\nSaka\nDirect free-kicks\nTrossard\nCorners & indirect free-kicks\nSaka\nØdegaard\n\nChelsea\nPenalties\nHavertz\nDirect free-kicks\nPalmer\nCorners & indirect free-kicks\nPalmer\nMadueke\n\n"

/-- The amended C1 scenario input: the Arsenal section followed by an
analogous section of the club that is next in the roster, Aston Villa. -/
def c1Good : String :=
  "Arsenal\nPenalties\nSaka\nDirect free-kicks\nTrossard\nCorners & indirect free-kicks\nSaka\nØdegaard\n\nAston Villa\nPenalties\nWatkins\nDirect free-kicks\nDigne\nCorners & indirect free-kicks\nDigne\nMcGinn\n\n"

/-- A C3 input whose corners block contains a line consisting of a single
space followed by a further taker line. -/
def c3Input : String :=
  "Arsenal\nPenalties\nCorners & indirect free-kicks\nSaka\n \nRice\n"

/-- A section text for the amended C3 theorem's witness. -/
def c3Sec : List Char := ("Corners & indirect free-kicks\nSaka\n \nRice\n").data

/-- A two-club input for the C4 witness. -/
def c4Demo : String := "Arsenal\nPenalties\nSaka\n\nAston Villa\nPenalties\nWatkins\n"

/-- A section with a Penalties anchor but no "Direct free-kicks" line. -/
def c6Sec : List Char := ("Arsenal\nPenalties\nSaka\n").data

/-- A section with a Penalties anchor, no line starting with
"Direct free-kicks", but a mid-line occurrence of that literal. -/
def c6Bad : String :=
  "Arsenal\nPenalties\nxxDirect free-kicks\nfoo\nCorners & indirect free-kicks\nSaka\n"

/-- A single-club input for the C7 serialization conjunct. -/
def c7Demo : String :=
  "Arsenal\nPenalties\nSaka\nDirect free-kicks\nTrossard\nCorners & indirect free-kicks\nSaka\nØdegaard\n\n"

/-- An input whose Aston Villa section precedes its Arsenal section, so
Arsenal's anchor lies after the anchor of the next roster club. -/
def c9Demo : String := "Aston Villa\nPenalties\nWatkins\n\nArsenal\nPenalties\nSaka\n"

/-- A section with a corners anchor, no empty line, and no trailing
newline. -/
def c10Sec : List Char := ("Arsenal\nPenalties\nCorners & indirect free-kicks\nSaka").data

lemma suffix_of_suffix_cons {r : List Char} {c : Char} {t : List Char}
    (h : r <:+ c :: t) : r = c :: t ∨ r <:+ t := by
  obtain ⟨w, hw⟩ := h
  cases w with
  | nil => exact Or.inl hw
  | cons a w' =>
    right
    injection hw with h1 h2
    exact ⟨w', h2⟩

lemma firstMatchPos_none (p : List Char → Bool) :
    ∀ s : List Char, firstMatchPos p s = none → ∀ r, r <:+ s → p r = false := by
  intro s
  induction s with
  | nil =>
    intro h r hr
    rw [List.suffix_nil.mp hr]
    rw [firstMatchPos] at h
    by_contra hb
    rw [Bool.not_eq_false] at hb
    rw [if_pos hb] at h
    exact Option.noConfusion h
  | cons c t ih =>
    intro h r hr
    rw [firstMatchPos] at h
    by_cases hc : p (c :: t) = true
    · rw [if_pos hc] at h
      exact Option.noConfusion h
    · rw [if_neg hc] at h
      rcases suffix_of_suffix_cons hr with rfl | hr'
      · exact Bool.not_eq_true _ |>.mp hc
      · exact ih (Option.map_eq_none'.mp h) r hr'

lemma searchBetween_none_of_no_lit (lit : List Char) (isEnd : List Char → Bool) :
    ∀ s : List Char, (∀ r, r <:+ s → startsWith lit r = false) →
      searchBetween lit isEnd s = none := by
  intro s
  induction s with
  | nil => intro _; rfl
  | cons c t ih =>
    intro h
    have h0 : startsWith lit (c :: t) = false := h _ (List.suffix_refl _)
    rw [searchBetween, if_neg (by rw [h0]; exact Bool.false_ne_true)]
    exact ih fun r hr => h r (hr.trans (List.suffix_cons c t))

lemma lazyLines_sound (isEnd : List Char → Bool) :
    ∀ s g : List Char, lazyLines isEnd s = some g →
      ∃ r, s = g ++ r ∧ isEnd r = true ∧ (∃ g₂, g = g₂ ++ ['\n']) ∧
        ∀ p q, g = p ++ '\n' :: q → q ≠ [] → isEnd (q ++ r) = false := by
  intro s
  induction s with
  | nil => intro g h; exact Option.noConfusion h
  | cons c t ih =>
    intro g h
    rw [lazyLines] at h
    by_cases hc : (c = '\n' && isEnd t) = true
    · rw [if_pos hc] at h
      obtain rfl : ['\n'] = g := Option.some.inj h
      rw [Bool.and_eq_true, decide_eq_true_eq] at hc
      refine ⟨t, by rw [hc.1]; rfl, hc.2, ⟨[], rfl⟩, ?_⟩
      intro p q hpq hq
      cases p with
      | nil =>
        exact absurd (List.cons.inj hpq).2.symm hq
      | cons a p' =>
        injection hpq with h1 h2
        exact absurd h2.symm (by simp)
    · rw [if_neg hc] at h
      obtain ⟨g', hg', rfl⟩ := Option.map_eq_some'.mp h
      obtain ⟨r, hsr, hEr, ⟨g₂, hg₂⟩, hmin⟩ := ih g' hg'
      refine ⟨r, by rw [hsr]; rfl, hEr, ⟨c :: g₂, by rw [hg₂]; rfl⟩, ?_⟩
      intro p q hpq hq
      cases p with
      | nil =>
        injection hpq with h1 h2
        subst h1
        subst h2
        have : isEnd t = false := by
          by_contra hb
          rw [Bool.not_eq_false] at hb
          exact hc (by simp [hb])
        rw [hsr] at this
        exact this
      | cons a p' =>
        injection hpq with h1 h2
        exact hmin p' q h2 hq

lemma tryAt_sound (isEnd : List Char → Bool) (r : List Char) (a : Nat) (g : List Char)
    (h : tryAt isEnd r a = some g) :
    lazyLines isEnd (r.drop (a + 1)) = some g := by
  rw [tryAt] at h
  by_cases hc : r.get? a = some '\n'
  · rwa [if_pos hc] at h
  · rw [if_neg hc] at h
    exact Option.noConfusion h

lemma tryWsLens_sound (isEnd : List Char → Bool) (r : List Char) :
    ∀ a g, tryWsLens isEnd r a = some g →
      ∃ k, lazyLines isEnd (r.drop k) = some g := by
  intro a
  induction a with
  | zero =>
    intro g h
    rw [tryWsLens] at h
    exact ⟨1, tryAt_sound _ _ _ _ h⟩
  | succ a ih =>
    intro g h
    rw [tryWsLens] at h
    cases hin : tryAt isEnd r (a + 1) with
    | some g' =>
      rw [hin] at h
      obtain rfl : g' = g := Option.some.inj h
      exact ⟨a + 2, tryAt_sound _ _ _ _ hin⟩
    | none =>
      rw [hin] at h
      exact ih g h

lemma searchBetween_sound (lit : List Char) (isEnd : List Char → Bool) :
    ∀ s g : List Char, searchBetween lit isEnd s = some g →
      ∃ s₀ k, s₀ <:+ s ∧ startsWith lit s₀ = true ∧
        (s₀.drop lit.length).drop k <:+ s₀ ∧
        lazyLines isEnd ((s₀.drop lit.length).drop k) = some g := by
  intro s
  induction s with
  | nil => intro g h; exact Option.noConfusion h
  | cons c t ih =>
    intro g h
    rw [searchBetween] at h
    by_cases hsw : startsWith lit (c :: t) = true
    · rw [if_pos hsw] at h
      cases hin : afterLit isEnd ((c :: t).drop lit.length) with
      | some g' =>
        rw [hin] at h
        obtain rfl : g' = g := Option.some.inj h
        obtain ⟨k, hk⟩ := tryWsLens_sound _ _ _ _ hin
        exact ⟨c :: t, k, List.suffix_refl _, hsw,
          ((List.drop_suffix _ _).trans (List.drop_suffix _ _)), hk⟩
      | none =>
        rw [hin] at h
        obtain ⟨s₀, k, h1, h2, h3, h4⟩ := ih g h
        exact ⟨s₀, k, h1.trans (List.suffix_cons c t), h2, h3, h4⟩
    · rw [if_neg hsw] at h
      obtain ⟨s₀, k, h1, h2, h3, h4⟩ := ih g h
      exact ⟨s₀, k, h1.trans (List.suffix_cons c t), h2, h3, h4⟩

lemma classify_true_absorbs :
    ∀ lines : List (List Char),
      classifyCornersAux lines true =
        ([], ((lines.map stripWs).filter (fun l => !l.isEmpty)).map (fun l => String.mk l)) := by
  intro lines
  induction lines with
  | nil => rfl
  | cons l t ih =>
    rw [classifyCornersAux]
    by_cases hl : (stripWs l).isEmpty
    · rw [if_pos hl, ih]
      simp [List.filter_cons, hl]
    · rw [if_neg hl]
      rw [if_neg (by intro hc; exact absurd hc.2 (by simp))]
      rw [ih]
      simp [List.filter_cons, Bool.not_eq_true' .. |>.mpr, hl]

lemma extractLoop_keys_sublist (cs : List Char) :
    ∀ l : List (Nat × String), ((extractLoop cs l).map Prod.fst).Sublist (l.map Prod.snd) := by
  intro l
  induction l with
  | nil => exact List.Sublist.slnil
  | cons p t ih =>
    rw [extractLoop]
    cases hb : clubBounds cs p.1 with
    | none => exact ih.cons p.2
    | some se => exact ih.cons₂ p.2

lemma extractLoop_lookup_none (cs : List Char) (club : String) :
    ∀ l : List (Nat × String),
      (∀ p ∈ l, p.2 = club → clubBounds cs p.1 = none) →
      (extractLoop cs l).lookup club = none := by
  intro l
  induction l with
  | nil => intro _; rfl
  | cons p t ih =>
    intro h
    rw [extractLoop]
    cases hb : clubBounds cs p.1 with
    | none => exact ih fun q hq => h q (List.mem_cons_of_mem _ hq)
    | some se =>
      have hne : club ≠ p.2 := by
        intro he
        have := h p (List.mem_cons_self _ _) he.symm
        rw [this] at hb
        exact Option.noConfusion hb
      rw [List.lookup, beq_eq_false_iff_ne.mpr hne]
      exact ih fun q hq => h q (List.mem_cons_of_mem _ hq)

lemma extractLoop_mem (cs : List Char) :
    ∀ (l : List (Nat × String)) (i : Nat) (c : String) (s e : Nat),
      (i, c) ∈ l → clubBounds cs i = some (s, e) →
      (c, extractSection ((cs.drop s).take (e - s))) ∈ extractLoop cs l := by
  intro l
  induction l with
  | nil => intro i c s e h _; exact absurd h (List.not_mem_nil _)
  | cons p t ih =>
    intro i c s e hmem hb
    rw [extractLoop]
    rcases List.mem_cons.mp hmem with heq | hmem'
    · rw [← heq, hb]
      exact List.mem_cons_self _ _
    · cases hb' : clubBounds cs p.1 with
      | none => exact ih i c s e hmem' hb
      | some se => exact List.mem_cons_of_mem _ (ih i c s e hmem' hb)

lemma mem_enumFrom_getD :
    ∀ (l : List String) (k i : Nat), i < l.length → (k + i, l.getD i "") ∈ l.enumFrom k := by
  intro l
  induction l with
  | nil => intro k i h; exact absurd h (by simp)
  | cons a t ih =>
    intro k i h
    cases i with
    | zero => simp [List.enumFrom]
    | succ i' =>
      have hi' : i' < t.length := by simpa using h
      have := ih (k + 1) i' hi'
      rw [List.enumFrom]
      refine List.mem_cons_of_mem _ ?_
      have harith : k + (i' + 1) = (k + 1) + i' := by omega
      rw [List.getD_cons_succ, harith]
      exact this

lemma mem_enum_getD (l : List String) (i : Nat) (h : i < l.length) :
    (i, l.getD i "") ∈ l.enum := by
  have := mem_enumFrom_getD l 0 i h
  simpa [List.enum] using this

lemma enum_getD_clubs : ∀ p ∈ clubs.enum, clubs.getD p.1 "" = p.2 := by decide

/-- C1, counterexample.  The claim expects the input consisting of exactly
the Arsenal section followed by an analogous Chelsea section to yield the
Arsenal record with corners `["Saka", "Ødegaard"]` and no notes.  In fact
the Arsenal section is bounded by the anchor of the club at roster index 1
(Aston Villa), which is absent, so the section runs to the end of the
document, and the whole Chelsea section is swallowed by Arsenal's corners
block; the corners regex also runs past the single blank line separating
the sections. -/
theorem C1_counterexample :
    (extract_set_piece_data c1Bad).lookup "Arsenal" ≠
      some (ClubRecord.mk ["Saka"] ["Trossard"] ["Saka", "Ødegaard"] []) ∧
    (extract_set_piece_data c1Bad).lookup "Arsenal" =
      some (ClubRecord.mk ["Saka"] ["Trossard"]
        ["Saka", "Ødegaard", "Chelsea", "Penalties", "Havertz", "Direct free-kicks", "Palmer"]
        ["Corners & indirect free-kicks", "Palmer", "Madueke"]) := by
  constructor
  · decide
  · decide

/-- C1, amended.  For an input containing exactly the Arsenal section
followed by an analogous section of the next roster club, Aston Villa, the
extraction produces the Arsenal record
penalties `["Saka"]`, direct free-kicks `["Trossard"]`,
corners `["Saka", "Ødegaard"]`, notes `[]`, and the Arsenal section ends at
the start offset (95) of the Aston Villa anchor. -/
theorem C1_amended :
    (extract_set_piece_data c1Good).lookup "Arsenal" =
      some (ClubRecord.mk ["Saka"] ["Trossard"] ["Saka", "Ødegaard"] []) ∧
    findAnchorPos "Aston Villa" c1Good.data = some 95 ∧
    clubBounds c1Good.data 0 = some (0, 95) := by
  refine ⟨by decide, by decide, by decide⟩

/-- C2: the corners-and-notes classification latch.  First conjunct: in
notes mode every remaining non-blank line is classified as a note
regardless of its token count.  Second conjunct: a first line of more than
2 whitespace-separated tokens switches classification to notes for that
line and every subsequent line of the block.  Third conjunct: the concrete
block of the claim. -/
theorem C2_latch :
    (∀ lines : List (List Char),
      classifyCornersAux lines true =
        ([], ((lines.map stripWs).filter (fun l => !l.isEmpty)).map (fun l => String.mk l))) ∧
    (∀ (l : List Char) (rest : List (List Char)),
      2 < (pySplitWs (stripWs l)).length →
      classifyCornersAux (l :: rest) false =
        ([], String.mk (stripWs l) ::
          ((rest.map stripWs).filter (fun x => !x.isEmpty)).map (fun x => String.mk x))) ∧
    classifyCornersAux
        ["Saka".data, "Ødegaard".data,
         "Set pieces depend on the opponent and situation".data, "Rice".data] false =
      (["Saka", "Ødegaard"], ["Set pieces depend on the opponent and situation", "Rice"]) := by
  refine ⟨classify_true_absorbs, ?_, by decide⟩
  intro l rest h
  have hne : ¬ (stripWs l).isEmpty := by
    intro hb
    rw [List.isEmpty_iff.mp hb] at h
    exact absurd h (by decide)
  rw [classifyCornersAux]
  rw [if_neg hne, if_neg (by intro hc; omega)]
  rw [classify_true_absorbs rest]

/-- Witness for the latch part of C2 at a concrete long line. -/
theorem C2_latch_witness :
    classifyCornersAux ["one two three four".data, "Rice".data] false =
      ([], ["one two three four", "Rice"]) :=
  C2_latch.2.1 "one two three four".data ["Rice".data] (by decide)

/-- C3, counterexample.  The claim says the corners block ends at the first
line consisting of only whitespace, giving for `c3Input` the corners list
`["Saka"]`.  In fact the terminator `(?:\n\n|\Z)` ignores the single-space
line, the block runs to the end of the section, and `"Rice"` is captured
and classified as a taker. -/
theorem C3_counterexample :
    (extract_set_piece_data c3Input).lookup "Arsenal" ≠
      some (ClubRecord.mk [] [] ["Saka"] []) ∧
    (extract_set_piece_data c3Input).lookup "Arsenal" =
      some (ClubRecord.mk [] [] ["Saka", "Rice"] []) := by
  constructor
  · decide
  · decide

/-- C3, amended.  The corners block captured after the anchor is the
shortest nonempty run of complete newline-terminated lines such that the
remaining text begins with two consecutive newlines or is empty (end of a
section whose last character is a newline).  A whitespace-only line, or a
single empty line, does not terminate the block: no earlier split point
after a complete line satisfies the terminator. -/
theorem C3_amended (sec g : List Char) (h : searchBetween cLit cornersEnd sec = some g) :
    ∃ r : List Char, (g ++ r) <:+ sec ∧
      (startsWith nlnl r = true ∨ r = []) ∧ (∃ g₂, g = g₂ ++ ['\n']) ∧
      ∀ p q, g = p ++ '\n' :: q → q ≠ [] → cornersEnd (q ++ r) = false := by
  obtain ⟨s₀, k, hsuf, _, hdropsuf, hlz⟩ := searchBetween_sound cLit cornersEnd sec g h
  obtain ⟨r, hsr, hEr, hnl, hmin⟩ := lazyLines_sound cornersEnd _ g hlz
  refine ⟨r, ?_, ?_, hnl, hmin⟩
  · rw [← hsr]
    exact hdropsuf.trans hsuf
  · rcases Bool.or_eq_true .. |>.mp hEr with hw | he
    · exact Or.inl hw
    · exact Or.inr (List.isEmpty_iff.mp he)

/-- Witness for C3_amended on the concrete section `c3Sec`. -/
theorem C3_amended_witness :
    ∃ r : List Char, (("Saka\n \nRice\n".data) ++ r) <:+ c3Sec ∧
      (startsWith nlnl r = true ∨ r = []) ∧
      (∃ g₂, "Saka\n \nRice\n".data = g₂ ++ ['\n']) ∧
      ∀ p q, "Saka\n \nRice\n".data = p ++ '\n' :: q → q ≠ [] →
        cornersEnd (q ++ r) = false :=
  C3_amended c3Sec "Saka\n \nRice\n".data (by decide)

/-- C4: for a club at index `i` whose own anchor is found at `s`, the
section's end offset is the start offset of the first match of club
`i+1`'s anchor searched from the beginning of the whole text; if club `i`
is the last roster club, or club `i+1`'s anchor is absent, the section
extends to the end of the document. -/
theorem C4_section_bounds (content : String) (i s : Nat)
    (hs : findAnchorPos (clubs.getD i "") content.data = some s) :
    (∀ q : Nat, i + 1 < clubs.length →
      findAnchorPos (clubs.getD (i + 1) "") content.data = some q →
      clubBounds content.data i = some (s, q)) ∧
    (i + 1 < clubs.length →
      findAnchorPos (clubs.getD (i + 1) "") content.data = none →
      clubBounds content.data i = some (s, content.data.length)) ∧
    (clubs.length ≤ i + 1 →
      clubBounds content.data i = some (s, content.data.length)) := by
  have hlen : clubs.length = 20 := rfl
  refine ⟨?_, ?_, ?_⟩
  · intro q hi hq
    simp only [clubBounds, hs]
    rw [if_pos (show i < clubs.length - 1 by omega), hq]
  · intro hi hq
    simp only [clubBounds, hs]
    rw [if_pos (show i < clubs.length - 1 by omega), hq]
  · intro hi
    simp only [clubBounds, hs]
    rw [if_neg (show ¬ i < clubs.length - 1 by omega)]

/-- Witness for C4 on `c4Demo`: Arsenal's section ends at the Aston Villa
anchor, offset 24. -/
theorem C4_section_bounds_witness :
    clubBounds c4Demo.data 0 = some (0, 24) :=
  (C4_section_bounds c4Demo 0 0 (by decide)).1 24 (by decide) (by decide)

/-- C5: a roster club whose anchor pattern has no match in the input gets
no key in the output mapping (and the total embedding returns, so no error
is raised for it). -/
theorem C5_absent_club (content : String) (club : String) (_hmem : club ∈ clubs)
    (h : findAnchorPos club content.data = none) :
    (extract_set_piece_data content).lookup club = none := by
  apply extractLoop_lookup_none
  intro p hp hpc
  have hgd : clubs.getD p.1 "" = p.2 := enum_getD_clubs p hp
  rw [clubBounds, hgd, hpc, h]

/-- Witness for C5: Arsenal is absent from the empty input. -/
theorem C5_absent_club_witness :
    (extract_set_piece_data "").lookup "Arsenal" = none :=
  C5_absent_club "" "Arsenal" (by decide) (by decide)

/-- C6, counterexample.  The claim's condition is only that no LINE of the
section STARTS with "Direct free-kicks".  That is not enough: the direct
free-kicks regex begins with the literal, and `re.search` matches it at
any position, mid-line included.  In `c6Bad` no line starts with the
literal (first conjunct), yet the occurrence inside the line
"xxDirect free-kicks" anchors a match and the club's direct free-kicks
list comes out `["foo"]`, not empty as the claim requires.  (The penalties
list is empty: there the literal is the group's terminator, which can only
sit at a line start.) -/
theorem C6_counterexample :
    (∀ l ∈ splitOnNl c6Bad.data, startsWith dLit l = false) ∧
    (extract_set_piece_data c6Bad).lookup "Arsenal" =
      some (ClubRecord.mk [] ["foo"] ["Saka"] []) := by
  constructor
  · decide
  · decide

/-- C6, amended: if the literal "Direct free-kicks" occurs nowhere in a
club's section — at any position, not only at line starts — extraction
still succeeds and both the penalties list and the direct free-kicks list
are empty. -/
theorem C6_missing_dfk (sec : List Char)
    (h : firstMatchPos penEnd sec = none) :
    (extractSection sec).penalties = [] ∧ (extractSection sec).direct_free_kicks = [] := by
  have hall : ∀ r, r <:+ sec → penEnd r = false := firstMatchPos_none penEnd sec h
  have h1 : searchBetween dLit dfkEnd sec = none :=
    searchBetween_none_of_no_lit dLit dfkEnd sec hall
  have h2 : searchBetween pLit penEnd sec = none := by
    cases hsb : searchBetween pLit penEnd sec with
    | none => rfl
    | some g =>
      obtain ⟨s₀, k, hsuf, _, hdropsuf, hlz⟩ := searchBetween_sound pLit penEnd sec g hsb
      obtain ⟨r, hsr, hEr, _, _⟩ := lazyLines_sound penEnd _ g hlz
      have hrsuf : r <:+ sec :=
        ((List.suffix_append g r).trans (hsr ▸ hdropsuf)).trans hsuf
      rw [hall r hrsuf] at hEr
      exact Bool.noConfusion hEr
  rw [extractSection]
  rw [h1, h2]
  exact ⟨rfl, rfl⟩

/-- Witness for C6 on the concrete section `c6Sec`. -/
theorem C6_missing_dfk_witness :
    (extractSection c6Sec).penalties = [] ∧ (extractSection c6Sec).direct_free_kicks = [] :=
  C6_missing_dfk c6Sec (by decide)

/-- C7: output shape and serialization.  First conjunct: the top-level keys
of the output are a subsequence of the roster in the roster's enumeration
order.  Second conjunct: with `ensure_ascii=False`, every printable
character other than the quote and the backslash — non-ASCII characters
included — is written literally.  Third conjunct: the fully serialized
document for `c7Demo`, exhibiting the four record fields
`penalties, direct_free_kicks, corners_indirect_free_kicks, notes` (always
present, in that order, as arrays of strings), the 4-space indentation per
nesting level, and the literal `Ø`. -/
theorem C7_output_shape :
    (∀ content : String,
      ((extract_set_piece_data content).map Prod.fst).Sublist clubs) ∧
    (∀ c : Char, 32 ≤ c.toNat → c ≠ '\"' → c ≠ '\\' → escChar c = String.singleton c) ∧
    serializeOutput (extract_set_piece_data c7Demo) =
      "\x7b\n    \"Arsenal\": \x7b\n        \"penalties\": [\n            \"Saka\"\n        ],\n        \"direct_free_kicks\": [\n            \"Trossard\"\n        ],\n        \"corners_indirect_free_kicks\": [\n            \"Saka\",\n            \"Ødegaard\"\n        ],\n        \"notes\": []\n    \x7d\n\x7d" := by
  refine ⟨?_, ?_, by decide⟩
  · intro content
    have h : clubs.enum.map Prod.snd = clubs := rfl
    rw [extract_set_piece_data, ← h]
    exact extractLoop_keys_sublist content.data clubs.enum
  · intro c h32 hq hb
    have hn : c ≠ '\n' := by intro hc; rw [hc] at h32; exact absurd h32 (by decide)
    have ht : c ≠ '\t' := by intro hc; rw [hc] at h32; exact absurd h32 (by decide)
    have hr : c ≠ '\r' := by intro hc; rw [hc] at h32; exact absurd h32 (by decide)
    have h8 : c ≠ '\x08' := by intro hc; rw [hc] at h32; exact absurd h32 (by decide)
    have hc : c ≠ '\x0c' := by intro hc; rw [hc] at h32; exact absurd h32 (by decide)
    rw [escChar, if_neg hq, if_neg hb, if_neg hn, if_neg ht, if_neg hr, if_neg h8,
      if_neg hc, if_neg (by omega)]

/-- Witness for C7's escaping conjunct at the non-ASCII character `Ø`. -/
theorem C7_output_shape_witness : escChar 'Ø' = String.singleton 'Ø' :=
  C7_output_shape.2.1 'Ø' (by decide) (by decide) (by decide)

/-- C8: when the input read (or its UTF-8 decoding) fails, the error
propagates unchanged and the run produces no effects at all — in
particular no output-write effect, since the write is emitted only on the
success branch, after the whole extraction.  The second conjunct records
that success branch. -/
theorem C8_error_propagation (e : String) :
    runScript (Except.error e) = Except.error e ∧
    ∀ content : String, runScript (Except.ok content) =
      Except.ok [ScriptStep.writeOutput (serializeOutput (extract_set_piece_data content)),
                 ScriptStep.printed confirmationMsg] :=
  ⟨rfl, fun _ => rfl⟩

/-- Witness for C8 at a concrete error value. -/
theorem C8_error_propagation_witness :
    runScript (Except.error "input file missing") = Except.error "input file missing" :=
  (C8_error_propagation "input file missing").1

/-- C9: if club `i`'s anchor is found at `s` and the next roster club's
anchor is found at an earlier offset `q < s`, club `i` still receives a
record, and all four of its lists are empty, because its section slice
`content[s:q]` is the empty string. -/
theorem C9_out_of_order (content : String) (i s q : Nat)
    (hi : i + 1 < clubs.length)
    (hs : findAnchorPos (clubs.getD i "") content.data = some s)
    (hq : findAnchorPos (clubs.getD (i + 1) "") content.data = some q)
    (hlt : q < s) :
    (clubs.getD i "", ClubRecord.mk [] [] [] []) ∈ extract_set_piece_data content := by
  have hlen : clubs.length = 20 := rfl
  have hb : clubBounds content.data i = some (s, q) := by
    simp only [clubBounds, hs]
    rw [if_pos (show i < clubs.length - 1 by omega), hq]
  have hmem : (i, clubs.getD i "") ∈ clubs.enum := mem_enum_getD clubs i (by omega)
  have h := extractLoop_mem content.data clubs.enum i (clubs.getD i "") s q hmem hb
  have hslice : (content.data.drop s).take (q - s) = [] := by
    rw [show q - s = 0 by omega]
    exact List.take_zero _
  rw [hslice] at h
  exact h

/-- Witness for C9 on `c9Demo`, whose Aston Villa section precedes its
Arsenal section. -/
theorem C9_out_of_order_witness :
    ("Arsenal", ClubRecord.mk [] [] [] []) ∈ extract_set_piece_data c9Demo :=
  C9_out_of_order c9Demo 0 31 0 (by decide) (by decide) (by decide) (by decide)

/-- C10: if a section's last character is not a newline and no two
consecutive newlines occur at or after any occurrence of the corners
anchor, then the corners regex cannot complete a match — the lazy group
only consumes complete newline-terminated lines and its terminator needs
`\n\n` or the end of the section — so both the corners list and the notes
list are empty and the final unterminated line is never captured. -/
theorem C10_unterminated (sec : List Char)
    (h1 : sec.getLast? ≠ some '\n')
    (h2 : ∀ r ∈ sec.tails, startsWith cLit r = false ∨ firstMatchPos nlnlAt r = none) :
    (extractSection sec).corners_indirect_free_kicks = [] ∧
    (extractSection sec).notes = [] := by
  have hsb : searchBetween cLit cornersEnd sec = none := by
    cases hsb : searchBetween cLit cornersEnd sec with
    | none => rfl
    | some g =>
      exfalso
      obtain ⟨s₀, k, hsuf, hsw, hdropsuf, hlz⟩ := searchBetween_sound cLit cornersEnd sec g hsb
      obtain ⟨r, hsr, hEr, ⟨g₂, hg₂⟩, _⟩ := lazyLines_sound cornersEnd _ g hlz
      rcases h2 s₀ ((List.mem_tails _ _).mpr hsuf) with hno | hnone
      · rw [hsw] at hno
        exact Bool.noConfusion hno
      · rcases Bool.or_eq_true .. |>.mp hEr with hw | he
        · have hrs₀ : r <:+ s₀ :=
            (List.suffix_append g r).trans (hsr ▸ hdropsuf)
          have := firstMatchPos_none nlnlAt s₀ hnone r hrs₀
          rw [nlnlAt, hw] at this
          exact Bool.noConfusion this
        · have hre : r = [] := List.isEmpty_iff.mp he
          have hgs : g <:+ sec := by
            have : g ++ r <:+ sec := (hsr ▸ hdropsuf).trans hsuf
            rwa [hre, List.append_nil] at this
          obtain ⟨w, hw⟩ := hgs
          have : sec.getLast? = some '\n' := by
            rw [← hw, hg₂, ← List.append_assoc]
            exact List.getLast?_concat _
          exact h1 this
  rw [extractSection]
  simp [cornersNotes, hsb]

/-- Witness for C10 on the concrete section `c10Sec`. -/
theorem C10_unterminated_witness :
    (extractSection c10Sec).corners_indirect_free_kicks = [] ∧
    (extractSection c10Sec).notes = [] :=
  C10_unterminated c10Sec (by decide) (by decide)
